import Mathlib

/-!
Shallow embedding of the `smart_reminders` component
(`custom_components/smart_reminders/__init__.py`): a reminder scheduler that
fires notification actions at computed occurrence times and re-arms itself
for recurring reminders.

Timestamps are modelled as natural numbers (UTC instants).  Python
dictionaries are modelled as association lists with insert-overwrite
semantics.  Fallible Python code (raised exceptions) is modelled with
`Except String`.  The external collaborators (dateparser, dateutil rrule,
Home Assistant service/event bus) are modelled at their boundary: the date
parser is a `String → Option Timestamp` parameter, the compiled recurrence
rule is its finite increasing list of occurrences, and each outbound effect
is recorded as an `OutputEvent`.
-/

abbrev Timestamp := Nat

/-- Python truthiness of an `Optional[str]` value: `None` and `""` are falsy. -/
def strTruthy : Option String → Bool
  | none => false
  | some s => s ≠ ""

/-- Association-list model of Python `d[k] = v`: replace the binding of `k`
if present (keeping its position), otherwise append at the end. -/
def dictInsert {α : Type} (k : String) (v : α) : List (String × α) → List (String × α)
  | [] => [(k, v)]
  | (k', v') :: rest => if k' = k then (k, v) :: rest else (k', v') :: dictInsert k v rest

/-- Association-list model of Python `d.get(k)` / `d[k]` lookup. -/
def dictGet {α : Type} (k : String) : List (String × α) → Option α
  | [] => none
  | (k', v) :: rest => if k' = k then some v else dictGet k rest

/-- Association-list model of Python `d.pop(k, None)`: remove the binding of
`k` if present, otherwise leave the list unchanged. -/
def dictPop {α : Type} (k : String) : List (String × α) → List (String × α)
  | [] => []
  | (k', v) :: rest => if k' = k then rest else (k', v) :: dictPop k rest

/-- Model of Python `base.update(upd)`: fold the update pairs into the base
dictionary, later bindings overriding earlier ones. -/
def dictUpdate (base upd : List (String × String)) : List (String × String) :=
  upd.foldl (fun m kv => dictInsert kv.1 kv.2 m) base

/-- The binding a sequence of `dictInsert`s leaves for `k`: the last pair of
the list whose key is `k`. -/
def lookupLast (k : String) : List (String × String) → Option String
  | [] => none
  | (k', v) :: rest =>
    match lookupLast k rest with
    | some v' => some v'
    | none => if k' = k then some v else none

/-- Split a character list at its first dot: the characters before it and
the characters after it, or `none` when no dot occurs. -/
def splitCharsOnDot : List Char → Option (List Char × List Char)
  | [] => none
  | c :: rest =>
    if c = '.' then some ([], rest)
    else
      match splitCharsOnDot rest with
      | some (pre, post) => some (c :: pre, post)
      | none => none

/-- Model of Python `s.split(".", 1)` followed by unpacking into exactly two
variables: `none` models the `ValueError` raised when `s` contains no dot. -/
def splitServiceRef (s : String) : Option (String × String) :=
  match splitCharsOnDot s.data with
  | some (pre, post) => some (String.mk pre, String.mk post)
  | none => none

/-- `ReminderAction` dataclass: one side effect to perform on trigger. -/
structure ReminderAction where
  type : String
  service : Option String := none
  entity_id : Option String := none
  data : List (String × String) := []
deriving DecidableEq

/-- The `start` argument of `Reminder`: either free-form text (resolved via
the external date-parsing capability) or an already-resolved timestamp. -/
inductive StartSpec where
  | text (s : String)
  | ts (t : Timestamp)
deriving DecidableEq

/-- `Reminder` dataclass after `__post_init__` has run: `start` is resolved
and `_rrule` holds the compiled recurrence iterator, modelled as the finite
list of occurrences the external rrule library would generate. -/
structure Reminder where
  message : String
  start : Timestamp
  rrule : Option String := none
  actions : List ReminderAction := []
  id : String
  _rrule : Option (List Timestamp) := none
deriving DecidableEq

/-- `Reminder.__post_init__` together with dataclass construction:
textual `start` is resolved through `parse` (the external dateparser),
raising `ValueError` when it cannot be resolved; a truthy `rrule` string is
compiled through `compile` (the external rrule library, modelled as
producing the occurrence list anchored at the resolved start), raising when
the grammar is malformed. -/
def mkReminder (parse : String → Option Timestamp)
    (compile : String → Timestamp → Option (List Timestamp))
    (message : String) (start : StartSpec) (rrule : Option String)
    (actions : List ReminderAction) (id : String) : Except String Reminder :=
  match start with
  | StartSpec.text s =>
    match parse s with
    | none => Except.error ("Could not parse start datetime: " ++ s)
    | some startTs => mkReminderCompiled compile message startTs rrule actions id
  | StartSpec.ts startTs => mkReminderCompiled compile message startTs rrule actions id
where
  mkReminderCompiled (compile : String → Timestamp → Option (List Timestamp))
      (message : String) (startTs : Timestamp) (rrule : Option String)
      (actions : List ReminderAction) (id : String) : Except String Reminder :=
    match rrule with
    | some rr =>
      if rr = "" then
        Except.ok { message := message, start := startTs, rrule := rrule,
                    actions := actions, id := id, _rrule := none }
      else
        match compile rr startTs with
        | some occs =>
          Except.ok { message := message, start := startTs, rrule := rrule,
                      actions := actions, id := id, _rrule := some occs }
        | none => Except.error ("Could not parse recurrence rule: " ++ rr)
    | none =>
      Except.ok { message := message, start := startTs, rrule := rrule,
                  actions := actions, id := id, _rrule := none }

/-- `Reminder.next_occurrence`: `self._rrule.after(now, inc=False)` when a
compiled rule exists (the first occurrence strictly after `now`, or `none`
when the rule is exhausted), `none` otherwise.  The current UTC clock is
passed explicitly as `now`. -/
def Reminder.next_occurrence (r : Reminder) (now : Timestamp) : Option Timestamp :=
  match r._rrule with
  | some occs => occs.find? (fun o => decide (now < o))
  | none => none

/-- One armed timer handle at the host's scheduling capability: the callback
`lambda _: self._handle_trigger(reminder)` closes over the reminder value. -/
structure Timer where
  reminder : Reminder
  when : Timestamp
deriving DecidableEq

/-- `ReminderManager` state: the id → Reminder mapping, together with the
armed timers held by the host's scheduling capability. -/
structure ReminderManager where
  _reminders : List (String × Reminder) := []
  timers : List Timer := []
deriving DecidableEq

/-- `ReminderManager._schedule(reminder, when)`: arm one timer at the
external scheduling capability whose callback triggers this reminder. -/
def ReminderManager.schedule (st : ReminderManager) (r : Reminder) (when : Timestamp) :
    ReminderManager :=
  { st with timers := st.timers ++ [{ reminder := r, when := when }] }

/-- `ReminderManager.add`: insert the reminder into the mapping keyed by its
id (last write wins) and arm a timer for its start. -/
def ReminderManager.add (st : ReminderManager) (r : Reminder) : ReminderManager :=
  ReminderManager.schedule { st with _reminders := dictInsert r.id r st._reminders } r r.start

/-- One outbound effect observed by the external capabilities: a service
call (`hass.services.async_call`) or an event-bus emission
(`hass.bus.async_fire`). -/
inductive OutputEvent where
  | serviceCall (domain service : String) (payload : List (String × String))
  | busEvent (name : String) (payload : List (String × String))
deriving DecidableEq

def EVENT_REMINDER_TRIGGERED : String := "reminder_triggered"

/-- Dispatch of a single action inside `_handle_trigger`'s loop body:
`tts` actions with a truthy `entity_id` call the speech service, `notify`
actions with a truthy `service` split the service reference and call it with
`{message: reminder.message}` updated by the action's `data`; anything else
is skipped.  `Except.error` models the `ValueError` raised when a `notify`
service reference contains no dot. -/
def dispatchAction (msg : String) (a : ReminderAction) : Except String (Option OutputEvent) :=
  if a.type == "tts" && strTruthy a.entity_id then
    Except.ok (some (OutputEvent.serviceCall "tts" "google_translate_say"
      [("entity_id", a.entity_id.getD ""), ("message", msg)]))
  else if a.type == "notify" && strTruthy a.service then
    match splitServiceRef (a.service.getD "") with
    | some (serviceDomain, serviceName) =>
      Except.ok (some (OutputEvent.serviceCall serviceDomain serviceName
        (dictUpdate [("message", msg)] a.data)))
    | none => Except.error "ValueError: not enough values to unpack"
  else
    Except.ok none

/-- The action loop of `_handle_trigger`: dispatch each action in list
order, collecting the launched service calls; an exception aborts the loop
and propagates. -/
def runActions (msg : String) : List ReminderAction → Except String (List OutputEvent)
  | [] => Except.ok []
  | a :: rest =>
    match dispatchAction msg a with
    | Except.error e => Except.error e
    | Except.ok none => runActions msg rest
    | Except.ok (some ev) =>
      match runActions msg rest with
      | Except.error e => Except.error e
      | Except.ok evs => Except.ok (ev :: evs)

/-- The tail of `_handle_trigger` after the action loop produced the service
calls `ds`: fire the `reminder_triggered` bus event, then either re-arm a
timer for the next occurrence or pop the reminder from the mapping. -/
def triggerFinish (now : Timestamp) (st : ReminderManager) (r : Reminder)
    (ds : List OutputEvent) : ReminderManager × List OutputEvent :=
  let outs := ds ++ [OutputEvent.busEvent EVENT_REMINDER_TRIGGERED
    [("id", r.id), ("message", r.message)]]
  match r.next_occurrence now with
  | some t => (st.schedule r t, outs)
  | none => ({ st with _reminders := dictPop r.id st._reminders }, outs)

/-- `ReminderManager._handle_trigger(reminder)`: dispatch the actions in
order, then finish with the bus event and the rescheduling step.  Returns
the new manager state and the ordered trace of outbound effects. -/
def ReminderManager.handle_trigger (now : Timestamp) (st : ReminderManager) (r : Reminder) :
    Except String (ReminderManager × List OutputEvent) :=
  match runActions r.message r.actions with
  | Except.error e => Except.error e
  | Except.ok ds => Except.ok (triggerFinish now st r ds)

/-- The structured payload of an inbound `add_reminder` service call:
`message` and `start` are fetched with `data[...]` (a missing key raises
`KeyError`), `rrule` with `data.get`, and `actions` defaults to the empty
list. -/
structure AddRequest where
  message : Option String := none
  start : Option StartSpec := none
  rrule : Option String := none
  actions : List ReminderAction := []
deriving DecidableEq

/-- The `handle_add` service handler: build the actions, construct the
`Reminder` (propagating construction errors) and hand it to the manager's
`add`.  `genId` stands for the fresh uuid generated for the reminder. -/
def handle_add (parse : String → Option Timestamp)
    (compile : String → Timestamp → Option (List Timestamp))
    (genId : String) (st : ReminderManager) (req : AddRequest) :
    Except String ReminderManager :=
  match req.message with
  | none => Except.error "KeyError: message"
  | some msg =>
    match req.start with
    | none => Except.error "KeyError: start"
    | some startSpec =>
      match mkReminder parse compile msg startSpec req.rrule req.actions genId with
      | Except.error e => Except.error e
      | Except.ok r => Except.ok (st.add r)

/-! ## Dictionary lemmas -/

theorem dictGet_dictInsert {α : Type} (k k' : String) (v : α) (m : List (String × α)) :
    dictGet k (dictInsert k' v m) = if k' = k then some v else dictGet k m := by
  induction m with
  | nil => simp [dictInsert, dictGet]
  | cons hd tl ih =>
    obtain ⟨k₀, v₀⟩ := hd
    by_cases h₀ : k₀ = k'
    · subst h₀
      by_cases h₁ : k₀ = k <;> simp [dictInsert, dictGet, h₁]
    · by_cases h₁ : k₀ = k
      · subst h₁
        have : ¬ k' = k₀ := fun h => h₀ h.symm
        simp [dictInsert, dictGet, h₀, this]
      · simp [dictInsert, dictGet, h₀, h₁, ih]

theorem dictGet_eq_none_of_not_mem {α : Type} (k : String) (m : List (String × α))
    (h : k ∉ m.map Prod.fst) : dictGet k m = none := by
  induction m with
  | nil => rfl
  | cons hd tl ih =>
    obtain ⟨k₀, v₀⟩ := hd
    simp only [List.map_cons, List.mem_cons] at h
    push_neg at h
    have hne : ¬ k₀ = k := fun he => h.1 he.symm
    simpa [dictGet, hne] using ih h.2

theorem dictGet_dictPop_self {α : Type} (k : String) (m : List (String × α))
    (h : (m.map Prod.fst).Nodup) : dictGet k (dictPop k m) = none := by
  induction m with
  | nil => rfl
  | cons hd tl ih =>
    obtain ⟨k₀, v₀⟩ := hd
    simp only [List.map_cons, List.nodup_cons] at h
    by_cases h₀ : k₀ = k
    · subst h₀
      simpa [dictPop] using dictGet_eq_none_of_not_mem k₀ tl h.1
    · simpa [dictPop, dictGet, h₀] using ih h.2

theorem length_dictPop {α : Type} (k : String) (m : List (String × α))
    (h : (dictGet k m).isSome = true) : (dictPop k m).length + 1 = m.length := by
  induction m with
  | nil => simp [dictGet] at h
  | cons hd tl ih =>
    obtain ⟨k₀, v₀⟩ := hd
    by_cases h₀ : k₀ = k
    · simp [dictPop, h₀]
    · simp only [dictGet, h₀, if_false] at h
      simpa [dictPop, h₀] using ih h

theorem dictPop_of_not_mem {α : Type} (k : String) (m : List (String × α))
    (h : dictGet k m = none) : dictPop k m = m := by
  induction m with
  | nil => rfl
  | cons hd tl ih =>
    obtain ⟨k₀, v₀⟩ := hd
    by_cases h₀ : k₀ = k
    · simp [dictGet, h₀] at h
    · simp only [dictGet, h₀, if_false] at h
      simp [dictPop, h₀, ih h]

theorem lookupLast_eq_none_iff (k : String) (m : List (String × String)) :
    lookupLast k m = none ↔ dictGet k m = none := by
  induction m with
  | nil => simp [lookupLast, dictGet]
  | cons hd tl ih =>
    obtain ⟨k₀, v₀⟩ := hd
    by_cases h₀ : k₀ = k
    · constructor
      · intro h
        simp only [lookupLast] at h
        split at h
        · exact absurd h (by simp)
        · simp [h₀] at h
      · intro h
        simp [dictGet, h₀] at h
    · simp only [lookupLast, dictGet, h₀, if_false, ← ih]
      constructor
      · intro h
        split at h
        · exact absurd h (by simp)
        · next heq => exact heq
      · intro h
        simp [h, h₀]

theorem lookupLast_eq_dictGet_of_nodup (k : String) (m : List (String × String))
    (h : (m.map Prod.fst).Nodup) : lookupLast k m = dictGet k m := by
  induction m with
  | nil => rfl
  | cons hd tl ih =>
    obtain ⟨k₀, v₀⟩ := hd
    simp only [List.map_cons, List.nodup_cons] at h
    by_cases h₀ : k₀ = k
    · subst h₀
      have htl : dictGet k₀ tl = none := dictGet_eq_none_of_not_mem k₀ tl h.1
      have hll : lookupLast k₀ tl = none := (lookupLast_eq_none_iff k₀ tl).mpr htl
      simp [lookupLast, dictGet, hll]
    · simp only [lookupLast, dictGet, h₀, if_false, ih h.2]
      split
      · next heq => exact heq.symm
      · next heq => simp [h₀, heq]

theorem dictGet_dictUpdate (base upd : List (String × String)) (k : String) :
    dictGet k (dictUpdate base upd) =
      match lookupLast k upd with
      | some v => some v
      | none => dictGet k base := by
  induction upd generalizing base with
  | nil => simp [dictUpdate, lookupLast]
  | cons hd tl ih =>
    obtain ⟨k₀, v₀⟩ := hd
    have hstep : dictUpdate base ((k₀, v₀) :: tl) = dictUpdate (dictInsert k₀ v₀ base) tl := rfl
    rw [hstep, ih]
    cases hll : lookupLast k tl with
    | some v => simp [lookupLast, hll]
    | none =>
      simp only [lookupLast, hll, dictGet_dictInsert]
      by_cases h₀ : k₀ = k <;> simp [h₀]

/-! ## Construction lemmas -/

theorem mkReminderCompiled_rrule_some
    (compile : String → Timestamp → Option (List Timestamp))
    (msg : String) (startTs : Timestamp) (rr : String) (acts : List ReminderAction)
    (i : String) (r : Reminder) (hrr : rr ≠ "")
    (h : mkReminder.mkReminderCompiled compile msg startTs (some rr) acts i = Except.ok r) :
    ∃ occs, compile rr startTs = some occs ∧ r._rrule = some occs := by
  simp only [mkReminder.mkReminderCompiled, hrr, if_false, reduceIte] at h
  cases hc : compile rr startTs with
  | none => simp [hc] at h
  | some occs =>
    simp only [hc] at h
    cases h
    exact ⟨occs, rfl, rfl⟩

/-! ## Claim theorems -/

/-- C1.  For every reminder constructed with a valid start and a (truthy,
compilable) recurrence rule, `next_occurrence` at clock `now` returns a
timestamp strictly greater than `now`, and returns `none` exactly when every
occurrence of the compiled rule is ≤ `now`, i.e. when the rule's count/until
bound is exhausted at `now`. -/
theorem next_occurrence_strictly_after
    (parse : String → Option Timestamp)
    (compile : String → Timestamp → Option (List Timestamp))
    (msg : String) (start : StartSpec) (rr : String) (acts : List ReminderAction)
    (i : String) (r : Reminder) (now : Timestamp) (hrr : rr ≠ "")
    (hmk : mkReminder parse compile msg start (some rr) acts i = Except.ok r) :
    ∃ occs, r._rrule = some occs ∧
      (∀ t, r.next_occurrence now = some t → now < t) ∧
      (r.next_occurrence now = none ↔ ∀ o ∈ occs, o ≤ now) := by
  have hsome : ∃ occs, r._rrule = some occs := by
    cases start with
    | text s =>
      cases hp : parse s with
      | none => simp [mkReminder, hp] at hmk
      | some startTs =>
        simp only [mkReminder, hp] at hmk
        obtain ⟨occs, -, h2⟩ := mkReminderCompiled_rrule_some compile msg startTs rr acts i r hrr hmk
        exact ⟨occs, h2⟩
    | ts startTs =>
      simp only [mkReminder] at hmk
      obtain ⟨occs, -, h2⟩ := mkReminderCompiled_rrule_some compile msg startTs rr acts i r hrr hmk
      exact ⟨occs, h2⟩
  obtain ⟨occs, hocc⟩ := hsome
  refine ⟨occs, hocc, ?_, ?_⟩
  · intro t ht
    simp only [Reminder.next_occurrence, hocc] at ht
    have hp := @List.find?_some _ (fun o => decide (now < o)) t occs ht
    simpa using hp
  · simp only [Reminder.next_occurrence, hocc]
    rw [List.find?_eq_none]
    constructor
    · intro h o ho
      have := h o ho
      simpa using this
    · intro h o ho
      simpa using h o ho

/-- A concrete recurring reminder for the C1 witness: rule "R", compiled
occurrences [3, 7]. -/
def reminderC1 : Reminder :=
  { message := "m", start := 0, rrule := some "R", actions := [], id := "a",
    _rrule := some [3, 7] }

/-- Concrete instance of `next_occurrence_strictly_after`: `reminderC1`
probed at now = 5. -/
theorem next_occurrence_strictly_after_witness :
    ∃ occs, reminderC1._rrule = some occs ∧
      (∀ t, reminderC1.next_occurrence 5 = some t → 5 < t) ∧
      (reminderC1.next_occurrence 5 = none ↔ ∀ o ∈ occs, o ≤ 5) :=
  next_occurrence_strictly_after (fun _ => none) (fun _ _ => some [3, 7]) "m"
    (StartSpec.ts 0) "R" [] "a" reminderC1 5 (by decide) rfl

/-- C2.  An action whose kind is unrecognized, or whose required target
field (`entity_id` for tts, `service` for notify) is missing/empty, is
silently skipped by the trigger handler: its dispatch raises nothing and
produces no service call, the remaining actions still run, and the whole of
`_handle_trigger` (event emission and rescheduling included) behaves as if
the action were absent. -/
theorem malformed_action_skipped (msg : String) (a : ReminderAction)
    (hmal : (a.type ≠ "tts" ∧ a.type ≠ "notify") ∨
            (a.type = "tts" ∧ strTruthy a.entity_id = false) ∨
            (a.type = "notify" ∧ strTruthy a.service = false)) :
    dispatchAction msg a = Except.ok none ∧
    (∀ rest, runActions msg (a :: rest) = runActions msg rest) ∧
    (∀ now st r rest ds, r.actions = a :: rest →
      runActions r.message rest = Except.ok ds →
      ReminderManager.handle_trigger now st r = Except.ok (triggerFinish now st r ds)) := by
  have h1 : (a.type == "tts" && strTruthy a.entity_id) = false := by
    rcases hmal with ⟨h, -⟩ | ⟨-, h⟩ | ⟨h, -⟩
    · simp [h]
    · simp [h]
    · simp [h]
  have h2 : (a.type == "notify" && strTruthy a.service) = false := by
    rcases hmal with ⟨-, h⟩ | ⟨h, -⟩ | ⟨-, h⟩
    · simp [h]
    · simp [h]
    · simp [h]
  have hd : dispatchAction msg a = Except.ok none := by
    simp [dispatchAction, h1, h2]
  have hr : ∀ m rest, runActions m (a :: rest) = runActions m rest := by
    intro m rest
    have hdm : dispatchAction m a = Except.ok none := by
      simp [dispatchAction, h1, h2]
    simp [runActions, hdm]
  refine ⟨hd, hr msg, ?_⟩
  intro now st r rest ds hract hds
  unfold ReminderManager.handle_trigger
  rw [hract, hr r.message rest, hds]

def actionC2 : ReminderAction := { type := "bogus" }

def reminderC2 : Reminder := { message := "x", start := 0, id := "b", actions := [actionC2] }

def managerC2 : ReminderManager := {}

/-- Concrete instance of `malformed_action_skipped`: an action of
unrecognized kind "bogus". -/
theorem malformed_action_skipped_witness :
    dispatchAction "x" actionC2 = Except.ok none ∧
    runActions "x" [actionC2] = runActions "x" [] ∧
    ReminderManager.handle_trigger 0 managerC2 reminderC2 =
      Except.ok (triggerFinish 0 managerC2 reminderC2 []) := by
  have h := malformed_action_skipped "x" actionC2 (Or.inl ⟨by decide, by decide⟩)
  exact ⟨h.1, h.2.1 [], h.2.2 0 managerC2 reminderC2 [] [] rfl rfl⟩

/-- C3.  A one-shot reminder (no compiled recurrence) yields
`next_occurrence = none` at every clock value, and a successful trigger pops
its id from the manager's mapping while arming no further timer. -/
theorem one_shot_retired (r : Reminder) (h : r._rrule = none) :
    (∀ now, r.next_occurrence now = none) ∧
    (∀ now st st' outs,
      ReminderManager.handle_trigger now st r = Except.ok (st', outs) →
      st'._reminders = dictPop r.id st._reminders ∧ st'.timers = st.timers ∧
      ((st._reminders.map Prod.fst).Nodup → dictGet r.id st'._reminders = none)) := by
  have hnone : ∀ now, r.next_occurrence now = none := by
    intro now
    simp [Reminder.next_occurrence, h]
  refine ⟨hnone, ?_⟩
  intro now st st' outs hok
  cases hra : runActions r.message r.actions with
  | error e => simp [ReminderManager.handle_trigger, hra] at hok
  | ok ds =>
    simp only [ReminderManager.handle_trigger, hra, triggerFinish, hnone now,
      Except.ok.injEq, Prod.mk.injEq] at hok
    obtain ⟨hst, -⟩ := hok
    refine ⟨?_, ?_, ?_⟩
    · rw [← hst]
    · rw [← hst]
    · intro hnd
      rw [← hst]
      exact dictGet_dictPop_self r.id st._reminders hnd

def reminderC3 : Reminder := { message := "m3", start := 2, id := "c3" }

def managerC3 : ReminderManager := { _reminders := [("c3", reminderC3)] }

def managerC3' : ReminderManager := {}

def outputsC3 : List OutputEvent :=
  [OutputEvent.busEvent "reminder_triggered" [("id", "c3"), ("message", "m3")]]

/-- Concrete instance of `one_shot_retired`: a one-shot reminder triggered
at time 5 in a manager holding exactly it. -/
theorem one_shot_retired_witness :
    reminderC3.next_occurrence 5 = none ∧
    managerC3'._reminders = dictPop reminderC3.id managerC3._reminders ∧
    managerC3'.timers = managerC3.timers ∧
    dictGet reminderC3.id managerC3'._reminders = none := by
  have h := one_shot_retired reminderC3 rfl
  have h2 := h.2 5 managerC3 managerC3' outputsC3 rfl
  exact ⟨h.1 5, h2.1, h2.2.1, h2.2.2 (by decide)⟩

/-- C4.  When a recurring reminder is triggered: while the recurrence
iterator still yields an occurrence the mapping is left unchanged (the
reminder stays present), and on the trigger at which the iterator returns
`none` the reminder's id is popped — the mapping shrinks by exactly one
entry. -/
theorem recurring_stays_until_exhausted
    (now : Timestamp) (st : ReminderManager) (r : Reminder)
    (st' : ReminderManager) (outs : List OutputEvent)
    (_hrec : r._rrule.isSome = true)
    (hok : ReminderManager.handle_trigger now st r = Except.ok (st', outs)) :
    ((r.next_occurrence now).isSome = true → st'._reminders = st._reminders) ∧
    (r.next_occurrence now = none →
      st'._reminders = dictPop r.id st._reminders ∧
      ((dictGet r.id st._reminders).isSome = true →
        st'._reminders.length + 1 = st._reminders.length) ∧
      ((st._reminders.map Prod.fst).Nodup → dictGet r.id st'._reminders = none)) := by
  cases hra : runActions r.message r.actions with
  | error e => simp [ReminderManager.handle_trigger, hra] at hok
  | ok ds =>
    cases hno : r.next_occurrence now with
    | some t =>
      simp only [ReminderManager.handle_trigger, hra, triggerFinish, hno,
        Except.ok.injEq, Prod.mk.injEq] at hok
      obtain ⟨hst, -⟩ := hok
      constructor
      · intro _
        rw [← hst]
        rfl
      · intro hc
        simp at hc
    | none =>
      simp only [ReminderManager.handle_trigger, hra, triggerFinish, hno,
        Except.ok.injEq, Prod.mk.injEq] at hok
      obtain ⟨hst, -⟩ := hok
      constructor
      · intro hc
        simp at hc
      · intro _
        refine ⟨by rw [← hst], ?_, ?_⟩
        · intro hmem
          rw [← hst]
          exact length_dictPop r.id st._reminders hmem
        · intro hnd
          rw [← hst]
          exact dictGet_dictPop_self r.id st._reminders hnd

def reminderC4 : Reminder :=
  { message := "m4", start := 0, rrule := some "R", id := "c4", _rrule := some [3] }

def managerC4 : ReminderManager := { _reminders := [("c4", reminderC4)] }

def managerC4' : ReminderManager := {}

def outputsC4 : List OutputEvent :=
  [OutputEvent.busEvent "reminder_triggered" [("id", "c4"), ("message", "m4")]]

/-- Concrete instance of `recurring_stays_until_exhausted`: a recurring
reminder whose single occurrence (3) is exhausted at now = 5, held alone in
the mapping. -/
theorem recurring_stays_until_exhausted_witness :
    ((reminderC4.next_occurrence 5).isSome = true →
      managerC4'._reminders = managerC4._reminders) ∧
    (reminderC4.next_occurrence 5 = none →
      managerC4'._reminders = dictPop reminderC4.id managerC4._reminders ∧
      ((dictGet reminderC4.id managerC4._reminders).isSome = true →
        managerC4'._reminders.length + 1 = managerC4._reminders.length) ∧
      ((managerC4._reminders.map Prod.fst).Nodup →
        dictGet reminderC4.id managerC4'._reminders = none)) :=
  recurring_stays_until_exhausted 5 managerC4 reminderC4 managerC4' outputsC4
    (by decide) rfl

/-- C5.  The trigger handler dispatches the actions in exactly list order:
for an action list [a, b, c] whose members all dispatch, the trace observed
by the external service-call capability is [ea, eb, ec]. -/
theorem action_order_preserved (msg : String) (a b c : ReminderAction)
    (ea eb ec : OutputEvent)
    (ha : dispatchAction msg a = Except.ok (some ea))
    (hb : dispatchAction msg b = Except.ok (some eb))
    (hc : dispatchAction msg c = Except.ok (some ec)) :
    runActions msg [a, b, c] = Except.ok [ea, eb, ec] := by
  simp [runActions, ha, hb, hc]

def actionC5a : ReminderAction := { type := "tts", entity_id := some "media_player.kitchen" }

def actionC5b : ReminderAction :=
  { type := "notify", service := some "mobile_app.phone", data := [("title", "T")] }

def actionC5c : ReminderAction := { type := "tts", entity_id := some "media_player.bedroom" }

def eventC5a : OutputEvent :=
  OutputEvent.serviceCall "tts" "google_translate_say"
    [("entity_id", "media_player.kitchen"), ("message", "hi")]

def eventC5b : OutputEvent :=
  OutputEvent.serviceCall "mobile_app" "phone" [("message", "hi"), ("title", "T")]

def eventC5c : OutputEvent :=
  OutputEvent.serviceCall "tts" "google_translate_say"
    [("entity_id", "media_player.bedroom"), ("message", "hi")]

/-- Concrete instance of `action_order_preserved`: two tts actions around a
notify action, dispatched in list order. -/
theorem action_order_preserved_witness :
    runActions "hi" [actionC5a, actionC5b, actionC5c] =
      Except.ok [eventC5a, eventC5b, eventC5c] :=
  action_order_preserved "hi" actionC5a actionC5b actionC5c eventC5a eventC5b eventC5c
    rfl rfl rfl

/-- C6.  A dispatched notify action carries the payload
`{message: reminder.message}` updated with the action's extra parameters:
an extra-parameters entry for "message" overrides the default, and
otherwise the default message value is kept. -/
theorem notify_extra_parameters_override (msg : String) (a : ReminderAction)
    (svc d n : String)
    (hty : a.type = "notify") (hsv : a.service = some svc) (hne : svc ≠ "")
    (hsplit : splitServiceRef svc = some (d, n)) :
    dispatchAction msg a =
      Except.ok (some (OutputEvent.serviceCall d n (dictUpdate [("message", msg)] a.data))) ∧
    (dictGet "message" a.data = none →
      dictGet "message" (dictUpdate [("message", msg)] a.data) = some msg) ∧
    ((a.data.map Prod.fst).Nodup → ∀ v, dictGet "message" a.data = some v →
      dictGet "message" (dictUpdate [("message", msg)] a.data) = some v) := by
  refine ⟨?_, ?_, ?_⟩
  · simp [dispatchAction, hty, hsv, strTruthy, hne, hsplit]
  · intro h
    rw [dictGet_dictUpdate]
    have hll : lookupLast "message" a.data = none := (lookupLast_eq_none_iff _ _).mpr h
    simp [hll, dictGet]
  · intro hnd v hv
    rw [dictGet_dictUpdate]
    rw [lookupLast_eq_dictGet_of_nodup _ _ hnd, hv]

def actionC6 : ReminderAction :=
  { type := "notify", service := some "mobile_app.phone",
    data := [("message", "OVERRIDE"), ("title", "T")] }

/-- Concrete instance of `notify_extra_parameters_override`: a notify action
whose extra parameters both add a "title" key and override "message". -/
theorem notify_extra_parameters_override_witness :
    dispatchAction "hi" actionC6 =
      Except.ok (some (OutputEvent.serviceCall "mobile_app" "phone"
        (dictUpdate [("message", "hi")] actionC6.data))) ∧
    (dictGet "message" actionC6.data = none →
      dictGet "message" (dictUpdate [("message", "hi")] actionC6.data) = some "hi") ∧
    ((actionC6.data.map Prod.fst).Nodup → ∀ v, dictGet "message" actionC6.data = some v →
      dictGet "message" (dictUpdate [("message", "hi")] actionC6.data) = some v) :=
  notify_extra_parameters_override "hi" actionC6 "mobile_app.phone" "mobile_app" "phone"
    rfl rfl (by decide) (by decide)

/-- Recognizer for bus-event outputs, used to count triggered-event
emissions in a trace. -/
def isBusEvent : OutputEvent → Bool
  | OutputEvent.busEvent _ _ => true
  | OutputEvent.serviceCall _ _ _ => false

theorem dispatchAction_ok_some_serviceCall (msg : String) (a : ReminderAction)
    (e : OutputEvent) (h : dispatchAction msg a = Except.ok (some e)) :
    isBusEvent e = false := by
  unfold dispatchAction at h
  split at h
  · cases h
    rfl
  · split at h
    · split at h
      · cases h
        rfl
      · cases h
    · cases h

theorem runActions_no_busEvent (msg : String) (acts : List ReminderAction)
    (ds : List OutputEvent) (h : runActions msg acts = Except.ok ds) :
    ∀ e ∈ ds, isBusEvent e = false := by
  induction acts generalizing ds with
  | nil =>
    cases h
    intro e he
    cases he
  | cons a rest ih =>
    unfold runActions at h
    cases hda : dispatchAction msg a with
    | error err => rw [hda] at h; cases h
    | ok o =>
      cases o with
      | none =>
        rw [hda] at h
        exact ih ds h
      | some ev =>
        rw [hda] at h
        cases hrr : runActions msg rest with
        | error err => rw [hrr] at h; cases h
        | ok evs =>
          rw [hrr] at h
          cases h
          intro e he
          cases he with
          | head => exact dispatchAction_ok_some_serviceCall msg a ev hda
          | tail _ htl => exact ih evs hrr e htl

/-- C7.  A successful trigger emits exactly one bus event — the
`reminder_triggered` event carrying `{id, message}` — and it comes after all
dispatched service calls, unconditionally: the trace is the dispatch list
followed by that single event, whatever the action list was. -/
theorem triggered_event_once_after_dispatch
    (now : Timestamp) (st : ReminderManager) (r : Reminder)
    (st' : ReminderManager) (outs : List OutputEvent)
    (hok : ReminderManager.handle_trigger now st r = Except.ok (st', outs)) :
    ∃ ds, runActions r.message r.actions = Except.ok ds ∧
      outs = ds ++ [OutputEvent.busEvent EVENT_REMINDER_TRIGGERED
        [("id", r.id), ("message", r.message)]] ∧
      (∀ e ∈ ds, isBusEvent e = false) ∧
      outs.countP isBusEvent = 1 := by
  cases hra : runActions r.message r.actions with
  | error e => simp [ReminderManager.handle_trigger, hra] at hok
  | ok ds =>
    simp only [ReminderManager.handle_trigger, hra, Except.ok.injEq] at hok
    have houts : outs = ds ++ [OutputEvent.busEvent EVENT_REMINDER_TRIGGERED
        [("id", r.id), ("message", r.message)]] := by
      unfold triggerFinish at hok
      cases hno : r.next_occurrence now with
      | some t =>
        simp only [hno, Prod.mk.injEq] at hok
        exact hok.2.symm
      | none =>
        simp only [hno, Prod.mk.injEq] at hok
        exact hok.2.symm
    have hnb : ∀ e ∈ ds, isBusEvent e = false := runActions_no_busEvent r.message r.actions ds hra
    refine ⟨ds, rfl, houts, hnb, ?_⟩
    rw [houts, List.countP_append]
    have hzero : ds.countP isBusEvent = 0 := by
      rw [List.countP_eq_zero]
      intro e he
      simp [hnb e he]
    rw [hzero]
    rfl

def reminderC7 : Reminder := { message := "m7", start := 1, id := "c7" }

def managerC7 : ReminderManager := {}

def outputsC7 : List OutputEvent :=
  [OutputEvent.busEvent "reminder_triggered" [("id", "c7"), ("message", "m7")]]

/-- Concrete instance of `triggered_event_once_after_dispatch`: a reminder
with an empty action list still emits exactly one triggered event. -/
theorem triggered_event_once_after_dispatch_witness :
    ∃ ds, runActions reminderC7.message reminderC7.actions = Except.ok ds ∧
      outputsC7 = ds ++ [OutputEvent.busEvent EVENT_REMINDER_TRIGGERED
        [("id", reminderC7.id), ("message", reminderC7.message)]] ∧
      (∀ e ∈ ds, isBusEvent e = false) ∧
      outputsC7.countP isBusEvent = 1 :=
  triggered_event_once_after_dispatch 4 managerC7 reminderC7 managerC7 outputsC7 rfl

/-- C8.  An add request whose textual start the date-parsing capability
cannot resolve is rejected with the construction-time `ValueError`
(`InvalidStartTime`): `handle_add` returns that error and never a new
manager state, so the mapping is unchanged and no timer is armed. -/
theorem invalid_start_rejected
    (parse : String → Option Timestamp)
    (compile : String → Timestamp → Option (List Timestamp))
    (genId : String) (st : ReminderManager) (req : AddRequest) (s m : String)
    (hmsg : req.message = some m) (hstart : req.start = some (StartSpec.text s))
    (hparse : parse s = none) :
    handle_add parse compile genId st req =
      Except.error ("Could not parse start datetime: " ++ s) ∧
    ∀ st', handle_add parse compile genId st req ≠ Except.ok st' := by
  have h : handle_add parse compile genId st req =
      Except.error ("Could not parse start datetime: " ++ s) := by
    simp [handle_add, hmsg, hstart, mkReminder, hparse]
  refine ⟨h, ?_⟩
  intro st' hc
  rw [h] at hc
  cases hc

def requestC8 : AddRequest := { message := some "Take pills", start := some (StartSpec.text "") }

def managerC8 : ReminderManager := {}

/-- Concrete instance of `invalid_start_rejected`: an add request whose
start text "" the parser resolves to nothing. -/
theorem invalid_start_rejected_witness :
    handle_add (fun _ => none) (fun _ _ => none) "g8" managerC8 requestC8 =
      Except.error ("Could not parse start datetime: " ++ "") ∧
    handle_add (fun _ => none) (fun _ _ => none) "g8" managerC8 requestC8 ≠
      Except.ok managerC8 :=
  ⟨(invalid_start_rejected (fun _ => none) (fun _ _ => none) "g8" managerC8 requestC8
      "" "Take pills" rfl rfl rfl).1,
   (invalid_start_rejected (fun _ => none) (fun _ _ => none) "g8" managerC8 requestC8
      "" "Take pills" rfl rfl rfl).2 managerC8⟩

def requestC9 : AddRequest := { message := some "", start := some (StartSpec.ts 5) }

def reminderC9 : Reminder := { message := "", start := 5, id := "rid" }

def managerC9 : ReminderManager := {}

def managerC9' : ReminderManager :=
  { _reminders := [("rid", reminderC9)], timers := [{ reminder := reminderC9, when := 5 }] }

/-- C9 counterexample.  The claim says an empty message string fails the
required-field constraint and surfaces as a rejected request; in the code
there is no non-emptiness check: the add request with `message = ""` is
accepted, the reminder is inserted into the mapping and a timer is armed. -/
theorem empty_message_accepted :
    handle_add (fun _ => none) (fun _ _ => none) "rid" managerC9 requestC9 =
      Except.ok managerC9' ∧
    dictGet "rid" managerC9'._reminders = some reminderC9 :=
  ⟨rfl, rfl⟩

/-- C9 (amended).  A missing message key surfaces as a rejected request
(the `KeyError` raised by `data["message"]`); an empty message string is
not validated and the reminder is silently accepted (see
`empty_message_accepted`). -/
theorem missing_message_rejected
    (parse : String → Option Timestamp)
    (compile : String → Timestamp → Option (List Timestamp))
    (genId : String) (st : ReminderManager) (req : AddRequest)
    (h : req.message = none) :
    handle_add parse compile genId st req = Except.error "KeyError: message" := by
  simp [handle_add, h]

def requestC9b : AddRequest := {}

/-- Concrete instance of `missing_message_rejected`: an add request with no
message key at all. -/
theorem missing_message_rejected_witness :
    handle_add (fun _ => none) (fun _ _ => none) "g9" managerC9 requestC9b =
      Except.error "KeyError: message" :=
  missing_message_rejected (fun _ => none) (fun _ _ => none) "g9" managerC9 requestC9b rfl

/-- C10.  `ReminderManager.add` with an id already present in the mapping
overwrites the old entry (last write wins, no crash) but never touches the
old reminder's cancel handle: every previously armed timer stays armed, and
the orphaned timer's callback still closes over the old reminder. -/
theorem add_orphans_old_timer (st : ReminderManager) (rOld rNew : Reminder) (tmr : Timer)
    (hid : rNew.id = rOld.id) (hmem : tmr ∈ st.timers) (hrem : tmr.reminder = rOld) :
    dictGet rOld.id (st.add rNew)._reminders = some rNew ∧
    tmr ∈ (st.add rNew).timers ∧ tmr.reminder = rOld := by
  refine ⟨?_, ?_, hrem⟩
  · show dictGet rOld.id (dictInsert rNew.id rNew st._reminders) = some rNew
    rw [hid, dictGet_dictInsert]
    simp
  · show tmr ∈ st.timers ++ [{ reminder := rNew, when := rNew.start }]
    exact List.mem_append_left _ hmem

def reminderOld : Reminder := { message := "old", start := 1, id := "dup" }

def reminderNew : Reminder := { message := "new", start := 9, id := "dup" }

def timerOld : Timer := { reminder := reminderOld, when := 1 }

def managerC10 : ReminderManager := { _reminders := [("dup", reminderOld)], timers := [timerOld] }

/-- Concrete instance of `add_orphans_old_timer`: re-adding id "dup"
overwrites the mapping entry while the old timer stays armed for the old
reminder. -/
theorem add_orphans_old_timer_witness :
    dictGet reminderOld.id (managerC10.add reminderNew)._reminders = some reminderNew ∧
    timerOld ∈ (managerC10.add reminderNew).timers ∧
    timerOld.reminder = reminderOld :=
  add_orphans_old_timer managerC10 reminderOld reminderNew timerOld rfl (by decide) rfl
